import Mathlib

/-!
Verification of the crawl-orchestration core of `playwright-cookie-collector`.

The repository ships two crawler variants in `src/models/crawlerModel.js`:

* the *recursive* variant (first class in the file): single-context,
  depth-first crawl with strict domain scoping, name-keyed cookie
  deduplication (`captureCookies`), and interaction with clickable divs
  (`interactWithDivs`); its `catch` block releases the page/context and
  rethrows;
* the *queue* variant (second class in the file): breadth-first crawl from a
  FIFO queue under a concurrency cap (`maxConcurrency`), without domain
  scoping, deduplication or interaction; `crawlUrl` catches and logs every
  visit error.

The recursive variant is embedded as a fuel-indexed pure function over an
abstract browsing environment (`Env`); the queue variant, whose claims are
about interleavings of concurrently in-flight `crawlUrl` calls, is embedded
as a small-step transition system (`QStep`/`QReachable`) whose atomic steps
are the synchronous blocks between `await` points of the JavaScript source.
The transition system over-approximates the real schedules (any order and
number of per-visit effects is allowed), so safety invariants proved over it
hold for all real runs.
-/

/-- Cookie attributes reported by the browsing engine
(`page.context().cookies()` / `context.cookies()`). -/
structure Cookie where
  name : String
  value : String
  domain : String
  path : String
deriving DecidableEq, Repr

/-- An entry of the `cookieLog` ledger.  The recursive variant pushes
`{ url, step, timestamp, cookies }` (all fields present), the queue variant
pushes `{ url, cookies }`; the absent JavaScript object fields are modelled
as `none`. -/
structure CookieEvent where
  url : String
  step : Option String
  timestamp : Option String
  cookies : List Cookie
deriving DecidableEq, Repr

/-- Result of a successful navigation to one URL, as reported by the
browsing engine: the post-redirect address (`page.url()`), the cookies
visible after `domcontentloaded`, the cookies that a re-read after the
click pass would return (environment data; the source never performs such
a re-read), and the anchor hrefs already resolved to absolute URLs
(the `new URL(href, page.url())` resolution that throws on malformed hrefs
is the engine's job; malformed ones are dropped). -/
structure PageResult where
  finalUrl : String
  cookiesLoad : List Cookie
  cookiesAfterClicks : List Cookie
  links : List String
deriving Repr

/-- The external browsing environment: URL-string hostname parsing
(`new URL(s).hostname`), navigation (`page.goto`; `none` models a
navigation timeout/failure, which throws in the source), and the clock
(`new Date().toISOString()`), abstracted to one run-constant string. -/
structure Env where
  hostOf : String → String
  nav : String → Option PageResult
  ts : String

/-- Configuration of the recursive-variant crawler instance
(fields of the first `CrawlerModel` constructor). -/
structure RecCfg where
  startUrl : String
  maxPages : Nat
  waitAfterClickMs : Nat
  startHostname : String

/-- Constructor of the recursive variant:
`this.waitAfterClickMs = waitAfterClickMs || 1000` (so the falsy `0` is
replaced by `1000`) and
`this.startHostname = new URL(startUrl).hostname`. -/
def mkRecCfg (env : Env) (startUrl : String) (maxPages waitAfterClickMs : Nat) :
    RecCfg :=
  { startUrl := startUrl
    maxPages := maxPages
    waitAfterClickMs := if waitAfterClickMs = 0 then 1000 else waitAfterClickMs
    startHostname := env.hostOf startUrl }

/-- Mutable instance state of the recursive variant:
`this.visited` (a `Set`, i.e. insertion-ordered duplicate-free string
collection), `this.recordedCookieNames`, `this.cookieLog`. -/
structure RecState where
  visited : List String
  recordedCookieNames : List String
  cookieLog : List CookieEvent
deriving Repr

/-- Fresh instance state of a crawler. -/
def RecState.init : RecState := ⟨[], [], []⟩

/-- JavaScript `Set.prototype.add`: append unless already a member. -/
def setAdd (l : List String) (x : String) : List String :=
  if x ∈ l then l else l ++ [x]

/-- `CrawlerModel.isSameDomain` (recursive variant):
`hostname === this.startHostname || hostname.endsWith('.' + this.startHostname)`. -/
def isSameDomain (startHostname hostname : String) : Bool :=
  hostname == startHostname || hostname.endsWith ("." ++ startHostname)

/-- `CrawlerModel.captureCookies` (recursive variant): filter out cookies
whose name is already in `recordedCookieNames`; if none remain, return
without logging; otherwise record the new names and append one event
`{ url: page.url(), step, timestamp, cookies: newCookies }`. -/
def captureCookies (s : RecState) (pageUrl : String) (cookies : List Cookie)
    (stepDescription ts : String) : RecState :=
  let newCookies := cookies.filter fun c =>
    !(decide (c.name ∈ s.recordedCookieNames))
  if newCookies.isEmpty then s
  else
    { s with
      recordedCookieNames :=
        newCookies.foldl (fun acc c => setAdd acc c.name) s.recordedCookieNames
      cookieLog :=
        s.cookieLog ++ [⟨pageUrl, some stepDescription, some ts, newCookies⟩] }

/-- The `for (const link of links)` loop at the end of the recursive
`crawl`: stop (`break`) once `visited.size >= maxPages`, otherwise run the
recursive call; a thrown error (second component `true`) propagates and
the remaining links are never processed. -/
def crawlLinks (maxPages : Nat) (f : String → RecState → RecState × Bool) :
    List String → RecState → RecState × Bool
  | [], s => (s, false)
  | l :: ls, s =>
    if maxPages ≤ s.visited.length then (s, false)
    else
      match f l s with
      | (s', true) => (s', true)
      | (s', false) => crawlLinks maxPages f ls s'

/-- `CrawlerModel.crawl(url, browser)` of the recursive variant, indexed by
fuel (the JavaScript recursion is unbounded; every claim proved below is
fuel-independent).  The boolean result is `true` when an error was
rethrown to the caller (the `catch` block closes the page and context and
then rethrows).  Steps, in source order: skip if visited, skip if the page
budget is reached, add to `visited`, navigate (failure rethrows), abandon
an out-of-scope post-redirect page, capture cookies with step
`'initial load'`, interact with divs (no effect on this state), filter the
extracted links to in-scope unvisited ones, and recurse over them. -/
def recCrawl (env : Env) (cfg : RecCfg) :
    Nat → String → RecState → RecState × Bool
  | 0, _, s => (s, false)
  | fuel + 1, url, s =>
    if url ∈ s.visited then (s, false)
    else if cfg.maxPages ≤ s.visited.length then (s, false)
    else
      let s1 : RecState := { s with visited := s.visited ++ [url] }
      match env.nav url with
      | none => (s1, true)
      | some pr =>
        if isSameDomain cfg.startHostname (env.hostOf pr.finalUrl) = false then
          (s1, false)
        else
          let s2 := captureCookies s1 pr.finalUrl pr.cookiesLoad
            "initial load" env.ts
          let links := pr.links.filter fun l =>
            isSameDomain cfg.startHostname (env.hostOf l) &&
              !(decide (l ∈ s2.visited))
          crawlLinks cfg.maxPages (fun l t => recCrawl env cfg fuel l t) links s2

/-- One interactive div candidate returned by
`page.$$('div[role="button"], div[tabindex]')`, together with its
engine-reported properties: `boundingBox()` (`none` models a `null` box or
an error), `isVisible()`, `getAttribute('disabled')`, and whether the
`click()` call itself succeeds (a failing click is swallowed and performs
no wait). -/
structure DivHandle where
  box : Option (Nat × Nat)
  visible : Bool
  disabledAttr : Option String
  clickSucceeds : Bool
deriving Repr

/-- `CrawlerModel.isVisibleAndClickable` (recursive variant): `false` when
the bounding box is missing or zero-sized, when the element is not
visible, or when it carries a `disabled` attribute. -/
def isVisibleAndClickable (d : DivHandle) : Bool :=
  match d.box with
  | none => false
  | some (bw, bh) =>
    if bw = 0 || bh = 0 then false
    else if !d.visible then false
    else
      match d.disabledAttr with
      | some _ => false
      | none => true

/-- The waits performed by `CrawlerModel.interactWithDivs` (recursive
variant): for every div that passes `isVisibleAndClickable` and whose
`click()` succeeds, one `page.waitForTimeout(this.waitAfterClickMs)` call. -/
def interactWaits (waitAfterClickMs : Nat) (divs : List DivHandle) : List Nat :=
  (divs.filter fun d => isVisibleAndClickable d && d.clickSucceeds).map
    fun _ => waitAfterClickMs

/-- Configuration of the queue-variant crawler instance
(fields of the second `CrawlerModel` constructor). -/
structure QCfg where
  startUrl : String
  maxPages : Nat
  waitAfterClickMs : Nat
  maxConcurrency : Nat

/-- Constructor of the queue variant:
`this.maxConcurrency = maxConcurrency || 5` (the falsy `0` becomes `5`);
`waitAfterClickMs` is stored unchanged. -/
def mkQueueCfg (startUrl : String) (maxPages waitAfterClickMs maxConcurrency : Nat) :
    QCfg :=
  { startUrl := startUrl
    maxPages := maxPages
    waitAfterClickMs := waitAfterClickMs
    maxConcurrency := if maxConcurrency = 0 then 5 else maxConcurrency }

/-- The waits performed by one queue-variant `crawlUrl` call after a
successful navigation:
`if (this.waitAfterClickMs > 0) await page.waitForTimeout(this.waitAfterClickMs)`. -/
def queueVisitWaits (waitAfterClickMs : Nat) : List Nat :=
  if 0 < waitAfterClickMs then [waitAfterClickMs] else []

/-- State of the queue-variant orchestrator between event-loop turns:
`this.queue`, `this.visited` (a `Set`), `this.cookieLog`, the URLs of the
in-flight `crawlUrl` tasks (`activePromises`, identified by their target
URL), plus two history variables that record observable output: the URLs
of all visits ever dispatched and the `console.error` visit-error log. -/
structure QState where
  queue : List String
  visited : List String
  cookieLog : List CookieEvent
  active : List String
  dispatched : List String
  errors : List String
deriving Repr

/-- Orchestrator state at entry of the queue variant's `crawl(browser)`:
the constructor already seeded `this.queue = [startUrl]`. -/
def QState.init (cfg : QCfg) : QState := ⟨[cfg.startUrl], [], [], [], [], []⟩

/-- One iteration of the inner dispatch loop of the queue variant's
`crawl`: `const url = this.queue.shift()`, and when `url` is not visited,
the synchronous prefix of `crawlUrl` (`this.visited.add(url)`) runs and
the new promise is pushed onto `activePromises`; an already-visited URL is
silently discarded. -/
def dispatchEffect (url : String) (rest : List String) (s : QState) : QState :=
  if url ∈ s.visited then { s with queue := rest }
  else
    { s with
      queue := rest
      visited := s.visited ++ [url]
      active := s.active ++ [url]
      dispatched := s.dispatched ++ [url] }

/-- The cookie push of the queue variant's `crawlUrl`:
`this.cookieLog.push({ url, cookies })` — unconditional, no step label, no
timestamp, no deduplication. -/
def recordEffect (url : String) (cookies : List Cookie) (s : QState) : QState :=
  { s with cookieLog := s.cookieLog ++ [⟨url, none, none, cookies⟩] }

/-- The enqueue loop of the queue variant's `crawlUrl`: push each href
that is neither visited nor already queued, rechecking against the queue
grown so far. -/
def pushLinks (visited : List String) (queue : List String) :
    List String → List String
  | [] => queue
  | h :: t =>
    if h ∉ visited ∧ h ∉ queue then pushLinks visited (queue ++ [h]) t
    else pushLinks visited queue t

/-- The whole synchronous enqueue block of `crawlUrl`, applied to the
`$$eval` result (hrefs filtered by `href.startsWith('http')`). -/
def enqueueEffect (hrefs : List String) (s : QState) : QState :=
  { s with
    queue := pushLinks s.visited s.queue
      (hrefs.filter fun h => h.startsWith "http") }

/-- Normal completion of one in-flight visit: the `.finally` handler
splices the promise out of `activePromises`. -/
def finishEffect (url : String) (s : QState) : QState :=
  { s with active := s.active.erase url }

/-- Failed completion of one in-flight visit: the error is logged
(`crawlUrl`'s own `catch` or the dispatch-site `.catch`) and the
`.finally` handler splices the promise out of `activePromises`; queue,
visited set and cookie log are untouched. -/
def failEffect (url msg : String) (s : QState) : QState :=
  { s with active := s.active.erase url, errors := s.errors ++ [msg] }

/-- Small-step transition relation of the queue variant.  Each constructor
is one synchronous block between `await` points of the source; the cookie
and link data of a visit are chosen by the environment.  Dispatching
requires the guards of the inner `while` loop:
`queue.length > 0 && activePromises.length < maxConcurrency && visited.size < maxPages`. -/
inductive QStep (cfg : QCfg) : QState → QState → Prop
  | dispatch (url : String) (rest : List String) (s : QState)
      (hq : s.queue = url :: rest)
      (hc : s.active.length < cfg.maxConcurrency)
      (hp : s.visited.length < cfg.maxPages) :
      QStep cfg s (dispatchEffect url rest s)
  | record (url : String) (cookies : List Cookie) (s : QState)
      (ha : url ∈ s.active) :
      QStep cfg s (recordEffect url cookies s)
  | enqueue (url : String) (hrefs : List String) (s : QState)
      (ha : url ∈ s.active) :
      QStep cfg s (enqueueEffect hrefs s)
  | finish (url : String) (s : QState)
      (ha : url ∈ s.active) :
      QStep cfg s (finishEffect url s)
  | fail (url msg : String) (s : QState)
      (ha : url ∈ s.active) :
      QStep cfg s (failEffect url msg s)

/-- States reachable by the queue variant's orchestrator from the start of
`crawl(browser)`. -/
inductive QReachable (cfg : QCfg) : QState → Prop
  | init : QReachable cfg (QState.init cfg)
  | step {s t : QState} : QReachable cfg s → QStep cfg s t → QReachable cfg t

/-- Navigation outcome seen by one queue-variant `crawlUrl` call. -/
inductive NavResult where
  | ok (cookies : List Cookie) (anchors : List String)
  | err (msg : String)

/-- Observable result of one queue-variant `crawlUrl` call past its
initial `visited.add`.  On success: one `{ url, cookies }` log entry and
the `startsWith('http')`-filtered hrefs offered to the enqueue loop; on a
navigation error: no entry, no links, one logged warning.  On both paths
`page.close()` and `context.close()` run (they sit after the
`try`/`catch`), and the error never escapes the call. -/
structure VisitOutcome where
  events : List CookieEvent
  hrefs : List String
  errors : List String
  pageClosed : Bool
  contextClosed : Bool
deriving Repr

/-- Body of the queue variant's `crawlUrl(url, browser)` after
`this.visited.add(url)`, as a function of the navigation outcome. -/
def crawlUrlBody (url : String) (nav : NavResult) : VisitOutcome :=
  match nav with
  | .ok cookies anchors =>
    { events := [⟨url, none, none, cookies⟩]
      hrefs := anchors.filter fun h => h.startsWith "http"
      errors := []
      pageClosed := true
      contextClosed := true }
  | .err msg =>
    { events := []
      hrefs := []
      errors := ["[WARN] Error visiting " ++ url ++ ": " ++ msg]
      pageClosed := true
      contextClosed := true }

/-- The JSON result document written once by
`CrawlerController.start` (`outputData`). -/
structure OutputData where
  startedAt : String
  visited : List String
  cookieLog : List CookieEvent
deriving Repr

/-- `CrawlerController.start`, output assembly:
`{ startedAt: new Date().toISOString(), visited: Array.from(crawler.visited), cookieLog: crawler.cookieLog }`. -/
def buildOutputData (ts : String) (visited : List String)
    (cookieLog : List CookieEvent) : OutputData :=
  ⟨ts, visited, cookieLog⟩

/-! ### Helper lemmas -/

theorem nodup_snoc {l : List String} {a : String}
    (hl : l.Nodup) (ha : a ∉ l) : (l ++ [a]).Nodup := by
  simp [List.nodup_append, hl, ha]

theorem pushLinks_nodup (v : List String) :
    ∀ (hs q : List String), q.Nodup → (pushLinks v q hs).Nodup := by
  intro hs
  induction hs with
  | nil => intro q hq; simpa [pushLinks] using hq
  | cons h t ih =>
    intro q hq
    by_cases hcond : h ∉ v ∧ h ∉ q
    · simpa [pushLinks, hcond] using ih _ (nodup_snoc hq hcond.2)
    · simpa [pushLinks, hcond] using ih _ hq

theorem pushLinks_not_visited (v : List String) :
    ∀ (hs q : List String), (∀ u ∈ q, u ∉ v) →
      ∀ u ∈ pushLinks v q hs, u ∉ v := by
  intro hs
  induction hs with
  | nil => intro q hq; simpa [pushLinks] using hq
  | cons h t ih =>
    intro q hq
    by_cases hcond : h ∉ v ∧ h ∉ q
    · simp only [pushLinks, hcond, if_pos]
      refine ih _ ?_
      intro u hu
      rcases List.mem_append.1 hu with h1 | h1
      · exact hq u h1
      · simpa using (List.mem_singleton.1 h1) ▸ hcond.1
    · simpa [pushLinks, hcond] using ih _ hq

/-! ### Inductive invariant of the queue-variant orchestrator -/

/-- Inductive invariant of the queue variant: the visited set respects the
page budget and holds no duplicate, the frontier holds no duplicate and is
disjoint from the visited set, the dispatched-visit history coincides with
the visited set (so no two dispatched visits target the same URL), the
in-flight count respects the concurrency cap, and every ledger entry of
this variant carries neither a step label nor a timestamp. -/
structure QInv (cfg : QCfg) (s : QState) : Prop where
  vb : s.visited.length ≤ cfg.maxPages
  vn : s.visited.Nodup
  qn : s.queue.Nodup
  qv : ∀ u ∈ s.queue, u ∉ s.visited
  dv : s.dispatched = s.visited
  ab : s.active.length ≤ cfg.maxConcurrency
  ev : ∀ e ∈ s.cookieLog, e.step = none ∧ e.timestamp = none

theorem qInv_init (cfg : QCfg) : QInv cfg (QState.init cfg) := by
  constructor <;> simp [QState.init]

theorem qInv_step {cfg : QCfg} {s t : QState}
    (hinv : QInv cfg s) (hstep : QStep cfg s t) : QInv cfg t := by
  obtain ⟨vb, vn, qn, qv, dv, ab, ev⟩ := hinv
  cases hstep with
  | dispatch url rest s hq hc hp =>
    have hrest : rest.Nodup := (hq ▸ qn).of_cons
    have hnr : url ∉ rest := (List.nodup_cons.1 (hq ▸ qn)).1
    by_cases hv : url ∈ s.visited
    · refine ⟨?_, ?_, ?_, ?_, ?_, ?_, ?_⟩ <;>
        simp only [dispatchEffect, hv, if_pos] <;>
        first
        | exact vb
        | exact vn
        | exact hrest
        | exact dv
        | exact ab
        | exact ev
        | exact fun u hu => qv u (hq ▸ List.mem_cons_of_mem _ hu)
    · refine ⟨?_, ?_, ?_, ?_, ?_, ?_, ?_⟩ <;>
        simp only [dispatchEffect, hv, if_neg, not_false_iff]
      · simpa using hp
      · exact nodup_snoc vn hv
      · exact hrest
      · intro u hu
        have hq1 : u ∈ s.queue := hq ▸ List.mem_cons_of_mem _ hu
        have hne : u ≠ url := fun h => hnr (h ▸ hu)
        simp [qv u hq1, hne]
      · simp [dv]
      · simpa using hc
      · exact ev
  | record url cookies s ha =>
    refine ⟨vb, vn, qn, qv, dv, ab, ?_⟩
    intro e he
    rcases List.mem_append.1 he with h1 | h1
    · exact ev e h1
    · simp_all [recordEffect]
  | enqueue url hrefs s ha =>
    exact ⟨vb, vn, pushLinks_nodup _ _ _ qn, pushLinks_not_visited _ _ _ qv,
      dv, ab, ev⟩
  | finish url s ha =>
    exact ⟨vb, vn, qn, qv, dv,
      le_trans (List.erase_sublist _ _).length_le ab, ev⟩
  | fail url msg s ha =>
    exact ⟨vb, vn, qn, qv, dv,
      le_trans (List.erase_sublist _ _).length_le ab, ev⟩

theorem qInv_reachable {cfg : QCfg} {s : QState}
    (h : QReachable cfg s) : QInv cfg s := by
  induction h with
  | init => exact qInv_init cfg
  | step _ hstep ih => exact qInv_step ih hstep

/-! ### Generic invariant preservation for the recursive variant -/

theorem crawlLinks_inv (maxPages : Nat)
    (f : String → RecState → RecState × Bool)
    (P : RecState → Prop) (Q : String → Prop)
    (hf : ∀ l s, Q l → P s → P (f l s).1) :
    ∀ (ls : List String) (s : RecState), (∀ l ∈ ls, Q l) → P s →
      P (crawlLinks maxPages f ls s).1 := by
  intro ls
  induction ls with
  | nil => intro s _ hP; simpa [crawlLinks] using hP
  | cons l t ih =>
    intro s hQ hP
    by_cases hb : maxPages ≤ s.visited.length
    · simpa [crawlLinks, hb] using hP
    · have hPl : P (f l s).1 := hf l s (hQ l (List.mem_cons_self l t)) hP
      rcases hfl : f l s with ⟨s', b⟩
      cases b
      · have ht : ∀ x ∈ t, Q x := fun x hx => hQ x (List.mem_cons_of_mem _ hx)
        have := ih s' ht (by simpa [hfl] using hPl)
        simpa [crawlLinks, hb, hfl] using this
      · simpa [crawlLinks, hb, hfl] using hPl

theorem recCrawl_inv (env : Env) (cfg : RecCfg)
    (P : RecState → Prop) (Q : String → Prop)
    (hQ : ∀ l, isSameDomain cfg.startHostname (env.hostOf l) = true → Q l)
    (hvis : ∀ (s : RecState) (url : String), Q url → url ∉ s.visited →
      s.visited.length < cfg.maxPages →
      P s → P { s with visited := s.visited ++ [url] })
    (hcap : ∀ (s : RecState) (u : String) (cs : List Cookie) (st ts : String),
      P s → P (captureCookies s u cs st ts)) :
    ∀ (fuel : Nat) (url : String) (s : RecState), Q url → P s →
      P (recCrawl env cfg fuel url s).1 := by
  intro fuel
  induction fuel with
  | zero => intro url s _ hP; simpa [recCrawl] using hP
  | succ n ih =>
    intro url s hQu hP
    by_cases h1 : url ∈ s.visited
    · simpa [recCrawl, h1] using hP
    · by_cases h2 : cfg.maxPages ≤ s.visited.length
      · simpa [recCrawl, h1, h2] using hP
      · have hP1 : P { s with visited := s.visited ++ [url] } :=
          hvis s url hQu h1 (Nat.lt_of_not_le h2) hP
        cases hnav : env.nav url with
        | none => simpa [recCrawl, h1, h2, hnav] using hP1
        | some pr =>
          by_cases h3 :
              isSameDomain cfg.startHostname (env.hostOf pr.finalUrl) = false
          · simpa [recCrawl, h1, h2, hnav, h3] using hP1
          · have hP2 := hcap { s with visited := s.visited ++ [url] }
              pr.finalUrl pr.cookiesLoad "initial load" env.ts hP1
            have hlinks : ∀ l ∈ pr.links.filter (fun l =>
                isSameDomain cfg.startHostname (env.hostOf l) &&
                  !(decide (l ∈ (captureCookies { s with visited := s.visited ++ [url] }
                    pr.finalUrl pr.cookiesLoad "initial load" env.ts).visited))), Q l := by
              intro l hl
              have hpred := (List.mem_filter.1 hl).2
              rw [Bool.and_eq_true] at hpred
              exact hQ l hpred.1
            have := crawlLinks_inv cfg.maxPages
              (fun l t => recCrawl env cfg n l t) P Q
              (fun l s hQl hPs => ih l s hQl hPs) _ _ hlinks hP2
            simpa [recCrawl, h1, h2, hnav, h3] using this

/-! ### Lemmas about `captureCookies` and the name-keyed dedup -/

theorem captureCookies_visited (s : RecState) (u : String) (cs : List Cookie)
    (st ts : String) : (captureCookies s u cs st ts).visited = s.visited := by
  simp only [captureCookies]
  split <;> rfl

theorem setAdd_mem_of_mem {l : List String} {x : String} (y : String)
    (h : x ∈ l) : x ∈ setAdd l y := by
  simp only [setAdd]
  split <;> simp [h]

theorem setAdd_mem_self (l : List String) (y : String) : y ∈ setAdd l y := by
  simp only [setAdd]
  split
  · assumption
  · simp

theorem foldl_setAdd_mem_of_mem :
    ∀ (cs : List Cookie) (acc : List String) (x : String), x ∈ acc →
      x ∈ cs.foldl (fun a c => setAdd a c.name) acc := by
  intro cs
  induction cs with
  | nil => simp
  | cons c t ih =>
    intro acc x hx
    exact ih _ _ (setAdd_mem_of_mem _ hx)

theorem foldl_setAdd_mem_name :
    ∀ (cs : List Cookie) (acc : List String) (c : Cookie), c ∈ cs →
      c.name ∈ cs.foldl (fun a c => setAdd a c.name) acc := by
  intro cs
  induction cs with
  | nil => simp
  | cons d t ih =>
    intro acc c hc
    rcases List.mem_cons.1 hc with h | h
    · subst h
      simp only [List.foldl_cons]
      exact foldl_setAdd_mem_of_mem _ _ _ (setAdd_mem_self _ _)
    · simp only [List.foldl_cons]
      exact ih _ _ h

/-- Does an event's cookie list contain a cookie of the given name? -/
def eventHasName (nm : String) (e : CookieEvent) : Bool :=
  e.cookies.any fun c => c.name == nm

/-- Dedup invariant of the recursive variant's ledger, per cookie name:
every name occurring in a logged event is registered in
`recordedCookieNames`, and at most one logged event mentions the name. -/
def DedupInv (nm : String) (s : RecState) : Prop :=
  (∀ e ∈ s.cookieLog, ∀ c ∈ e.cookies, c.name ∈ s.recordedCookieNames) ∧
  s.cookieLog.countP (eventHasName nm) ≤ 1

theorem dedupInv_init (nm : String) : DedupInv nm RecState.init := by
  constructor <;> simp [RecState.init]

theorem captureCookies_dedupInv (nm : String) (s : RecState) (u : String)
    (cs : List Cookie) (st ts : String)
    (h : DedupInv nm s) : DedupInv nm (captureCookies s u cs st ts) := by
  obtain ⟨h1, h2⟩ := h
  simp only [captureCookies]
  split
  · exact ⟨h1, h2⟩
  · rename_i hemp
    have hne : (cs.filter fun c =>
        !(decide (c.name ∈ s.recordedCookieNames))) ≠ [] := by
      simpa [List.isEmpty_iff] using hemp
    constructor
    · intro e he c hc
      rcases List.mem_append.1 he with hold | hnew
      · exact foldl_setAdd_mem_of_mem _ _ _ (h1 e hold c hc)
      · have he2 : e = ⟨u, some st, some ts,
            cs.filter fun c => !(decide (c.name ∈ s.recordedCookieNames))⟩ := by
          simpa using hnew
        subst he2
        exact foldl_setAdd_mem_name _ _ _ hc
    · rw [List.countP_append]
      by_cases hev : eventHasName nm ⟨u, some st, some ts,
          cs.filter fun c => !(decide (c.name ∈ s.recordedCookieNames))⟩ = true
      · have hnm : nm ∉ s.recordedCookieNames := by
          simp only [eventHasName, List.any_eq_true] at hev
          obtain ⟨c, hc, hcn⟩ := hev
          have hcn' : c.name = nm := by simpa using hcn
          have := (List.mem_filter.1 hc).2
          simp only [Bool.not_eq_true', decide_eq_false_iff_not] at this
          exact hcn' ▸ this
        have hold0 : s.cookieLog.countP (eventHasName nm) = 0 := by
          rw [List.countP_eq_zero]
          intro e he hev2
          simp only [eventHasName, List.any_eq_true] at hev2
          obtain ⟨c, hc, hcn⟩ := hev2
          have hcn' : c.name = nm := by simpa using hcn
          exact hnm (hcn' ▸ h1 e he c hc)
        simp [hold0, List.countP_cons, hev]
      · have : List.countP (eventHasName nm) [(⟨u, some st, some ts,
            cs.filter fun c => !(decide (c.name ∈ s.recordedCookieNames))⟩ :
              CookieEvent)] = 0 := by
          simp [List.countP_cons, hev]
        omega

theorem captureCookies_countP_of_recorded (nm : String) (s : RecState)
    (u : String) (cs : List Cookie) (st ts : String)
    (hnm : nm ∈ s.recordedCookieNames) :
    (captureCookies s u cs st ts).cookieLog.countP (eventHasName nm)
      = s.cookieLog.countP (eventHasName nm) := by
  simp only [captureCookies]
  split
  · rfl
  · have hev : eventHasName nm ⟨u, some st, some ts,
        cs.filter fun c => !(decide (c.name ∈ s.recordedCookieNames))⟩ = false := by
      apply Bool.eq_false_iff.2
      intro hcontra
      simp only [eventHasName, List.any_eq_true] at hcontra
      obtain ⟨c, hc, hcn⟩ := hcontra
      have hcn' : c.name = nm := by simpa using hcn
      have hfc := (List.mem_filter.1 hc).2
      simp only [Bool.not_eq_true', decide_eq_false_iff_not] at hfc
      exact hfc (hcn' ▸ hnm)
    rw [List.countP_append]
    simp [List.countP_cons, hev]

theorem captureCookies_nonempty_events (t : RecState) (u : String)
    (cs : List Cookie) (st ts : String)
    (h : ∀ x ∈ t.cookieLog, x.cookies ≠ []) :
    ∀ x ∈ (captureCookies t u cs st ts).cookieLog, x.cookies ≠ [] := by
  simp only [captureCookies]
  split
  · exact h
  · rename_i hemp
    intro x hx
    rcases List.mem_append.1 hx with h1 | h1
    · exact h x h1
    · have hx2 : x = ⟨u, some st, some ts,
          cs.filter fun c => !(decide (c.name ∈ t.recordedCookieNames))⟩ := by
        simpa using h1
      subst hx2
      simpa [List.isEmpty_iff] using hemp

theorem captureCookies_step_timestamp (t : RecState) (u : String)
    (cs : List Cookie) (st ts : String)
    (h : ∀ x ∈ t.cookieLog, x.step.isSome ∧ x.timestamp.isSome) :
    ∀ x ∈ (captureCookies t u cs st ts).cookieLog,
      x.step.isSome ∧ x.timestamp.isSome := by
  simp only [captureCookies]
  split
  · exact h
  · intro x hx
    rcases List.mem_append.1 hx with h1 | h1
    · exact h x h1
    · have hx2 : x = ⟨u, some st, some ts,
          cs.filter fun c => !(decide (c.name ∈ t.recordedCookieNames))⟩ := by
        simpa using h1
      subst hx2
      exact ⟨rfl, rfl⟩

/-! ### Concrete fixtures -/

/-- Cookie set by the fixture seed page on initial load. -/
def sessionCookie : Cookie := ⟨"session", "1", "a.example", "/"⟩

/-- Cookie the fixture seed page sets only after a click on its
interactive div (visible only on a cookie re-read after the click pass). -/
def consentCookie : Cookie := ⟨"consent", "yes", "a.example", "/"⟩

/-- Hostname parsing for the fixture URLs (`new URL(s).hostname`). -/
def hostOfEx (u : String) : String :=
  if u = "https://a.example/" then "a.example"
  else if u = "https://a.example/x" then "a.example"
  else if u = "https://a.example/r" then "a.example"
  else if u = "https://a.example/bad" then "a.example"
  else if u = "https://b.other/" then "b.other"
  else "invalid.example"

/-- The fixture seed page: sets `session=1` on load, would show `consent=yes`
on a cookie re-read after the click pass, and links to one same-domain page
and one foreign-domain page. -/
def pageEx : PageResult :=
  ⟨"https://a.example/", [sessionCookie], [sessionCookie, consentCookie],
    ["https://a.example/x", "https://b.other/"]⟩

/-- Fixture navigation: the seed and `/x` load fine (`/x` re-serves the
identical `session` cookie), `/r` redirects out of scope, everything else
fails to navigate. -/
def navEx (u : String) : Option PageResult :=
  if u = "https://a.example/" then some pageEx
  else if u = "https://a.example/x" then
    some ⟨"https://a.example/x", [sessionCookie], [], []⟩
  else if u = "https://a.example/r" then
    some ⟨"https://b.other/", [], [], []⟩
  else none

/-- Fixture browsing environment. -/
def envEx : Env := ⟨hostOfEx, navEx, "2026-10-11T00:00:00.000Z"⟩

/-- Fixture recursive-variant crawler over `envEx`. -/
def recCfgEx : RecCfg := mkRecCfg envEx "https://a.example/" 10 600

/-- Fixture navigation for the error-propagation run: the seed links first
to a URL whose navigation fails and then to a good same-domain URL. -/
def navErr (u : String) : Option PageResult :=
  if u = "https://a.example/" then
    some ⟨"https://a.example/", [], [],
      ["https://a.example/bad", "https://a.example/x"]⟩
  else if u = "https://a.example/x" then
    some ⟨"https://a.example/x", [], [], []⟩
  else none

/-- Fixture environment with one failing navigation. -/
def envErr : Env := ⟨hostOfEx, navErr, "2026-10-11T00:00:00.000Z"⟩

/-- Fixture recursive-variant crawler over `envErr`. -/
def recCfgErr : RecCfg := mkRecCfg envErr "https://a.example/" 10 600

/-- Fixture queue-variant crawler: constructed with `maxConcurrency = 0`
(falsy), so the default `5` applies. -/
def qcfgEx : QCfg := mkQueueCfg "https://a.example/" 10 600 0

/-- Fixture queue-variant run: dispatch the seed, observe no cookies at all
(`context.cookies()` returns `[]`), finish the visit. -/
def qsEx : QState :=
  finishEffect "https://a.example/"
    (recordEffect "https://a.example/" []
      (dispatchEffect "https://a.example/" [] (QState.init qcfgEx)))

theorem qreachEx : QReachable qcfgEx qsEx :=
  (((QReachable.init :
        QReachable qcfgEx (QState.init qcfgEx)).step
      (QStep.dispatch "https://a.example/" [] _ rfl (by decide) (by decide))).step
    (QStep.record "https://a.example/" [] _ (by decide))).step
  (QStep.finish "https://a.example/" _ (by decide))

/-! ### Claim theorems -/

/-- C1: at every point of every run of either variant, the visited set
never exceeds `maxPages`: every queue-variant reachable orchestrator state
satisfies `|visited| ≤ maxPages` (a URL is only dispatched — and
synchronously added to `visited` by `crawlUrl` — while
`visited.size < maxPages`), and the recursive `crawl` preserves the bound
from any state satisfying it (it returns before adding once
`visited.size >= maxPages`). -/
theorem c1_visited_never_exceeds_maxPages
    (qcfg : QCfg) (qs : QState) (hq : QReachable qcfg qs)
    (env : Env) (cfg : RecCfg) (fuel : Nat) (url : String) (s : RecState)
    (hs : s.visited.length ≤ cfg.maxPages) :
    qs.visited.length ≤ qcfg.maxPages ∧
    (recCrawl env cfg fuel url s).1.visited.length ≤ cfg.maxPages := by
  refine ⟨(qInv_reachable hq).vb, ?_⟩
  refine recCrawl_inv env cfg (fun t => t.visited.length ≤ cfg.maxPages)
    (fun _ => True) (fun _ _ => trivial) ?_ ?_ fuel url s trivial hs
  · intro t u _ _ hlt _
    simp only [List.length_append, List.length_singleton]
    omega
  · intro t u cs st ts h
    simpa [captureCookies_visited] using h

/-- Witness for C1: the bound holds at the end of the fixture queue trace
and of the fixture recursive run. -/
theorem c1_visited_never_exceeds_maxPages_witness :
    qsEx.visited.length ≤ qcfgEx.maxPages ∧
    (recCrawl envEx recCfgEx 5 "https://a.example/"
      RecState.init).1.visited.length ≤ recCfgEx.maxPages :=
  c1_visited_never_exceeds_maxPages qcfgEx qsEx qreachEx envEx recCfgEx 5
    "https://a.example/" RecState.init (by decide)

/-- C2: no URL is claimed or dispatched twice in one run: in every
queue-variant reachable state the visited set, the dispatched-visit
history and the frontier are duplicate-free and the frontier is disjoint
from the visited set; and the recursive `crawl` (whose entry guard skips
visited URLs) preserves duplicate-freeness of its visited set. -/
theorem c2_no_url_claimed_twice
    (qcfg : QCfg) (qs : QState) (hq : QReachable qcfg qs)
    (env : Env) (cfg : RecCfg) (fuel : Nat) (url : String) (s : RecState)
    (hs : s.visited.Nodup) :
    qs.visited.Nodup ∧ qs.dispatched.Nodup ∧ qs.queue.Nodup ∧
    (∀ u ∈ qs.queue, u ∉ qs.visited) ∧
    (recCrawl env cfg fuel url s).1.visited.Nodup := by
  obtain ⟨_, vn, qn, qv, dv, _, _⟩ := qInv_reachable hq
  refine ⟨vn, by rw [dv]; exact vn, qn, qv, ?_⟩
  refine recCrawl_inv env cfg (fun t => t.visited.Nodup)
    (fun _ => True) (fun _ _ => trivial) ?_ ?_ fuel url s trivial hs
  · intro t u _ hnm _ hP
    exact nodup_snoc hP hnm
  · intro t u cs st ts h
    simpa [captureCookies_visited] using h

/-- Witness for C2 at the fixture queue trace and recursive run. -/
theorem c2_no_url_claimed_twice_witness :
    qsEx.visited.Nodup ∧ qsEx.dispatched.Nodup ∧ qsEx.queue.Nodup ∧
    (∀ u ∈ qsEx.queue, u ∉ qsEx.visited) ∧
    (recCrawl envEx recCfgEx 5 "https://a.example/"
      RecState.init).1.visited.Nodup :=
  c2_no_url_claimed_twice qcfgEx qsEx qreachEx envEx recCfgEx 5
    "https://a.example/" RecState.init (by decide)

/-- C3: at every instant of a queue-variant run the number of in-flight
visits (`activePromises.length`) is at most the configured
`maxConcurrency` (a visit is dispatched only while
`activePromises.length < maxConcurrency`, and each completion splices
itself out); the constructor turns a falsy `maxConcurrency` into the
default `5`. -/
theorem c3_inflight_le_maxConcurrency
    (qcfg : QCfg) (qs : QState) (hq : QReachable qcfg qs)
    (u : String) (p w : Nat) :
    qs.active.length ≤ qcfg.maxConcurrency ∧
    (mkQueueCfg u p w 0).maxConcurrency = 5 :=
  ⟨(qInv_reachable hq).ab, rfl⟩

/-- Witness for C3 at the fixture queue trace. -/
theorem c3_inflight_le_maxConcurrency_witness :
    qsEx.active.length ≤ qcfgEx.maxConcurrency ∧
    (mkQueueCfg "https://a.example/" 10 600 0).maxConcurrency = 5 :=
  c3_inflight_le_maxConcurrency qcfgEx qsEx qreachEx "https://a.example/" 10 600

/-- C4: code bug.  The recursive `crawl` calls `captureCookies` once, with
step `'initial load'`, then `interactWithDivs`, and never re-reads cookies
afterwards, although the repository README promises capture "after
interacting with clickable div elements".  On the fixture page that sets
`session=1` on load and would show `consent=yes` on a re-read after the
click pass, the run emits exactly one Cookie Event, whose step is
`"initial load"`; no event with step `"after interaction"` exists and the
`consent` cookie is never recorded. -/
theorem c4_no_after_interaction_event :
    (recCrawl envEx recCfgEx 5 "https://a.example/"
        RecState.init).1.cookieLog.map (fun e => e.step)
      = [some "initial load"] ∧
    consentCookie ∈ pageEx.cookiesAfterClicks ∧
    ((recCrawl envEx recCfgEx 5 "https://a.example/"
        RecState.init).1.cookieLog.all
      fun e => e.step != some "after interaction") = true ∧
    "consent" ∉ (recCrawl envEx recCfgEx 5 "https://a.example/"
        RecState.init).1.recordedCookieNames := by
  refine ⟨?_, ?_, ?_, ?_⟩ <;> decide

/-- C5: counterexample to "a recoverable visit error never aborts the run".
In the recursive variant the `catch` block rethrows: on the fixture where
the seed links first to a URL whose navigation fails and then to a good
same-domain URL, the error propagates out of `crawl` (second component
`true`) and the next frontier entry is never visited. -/
theorem c5_counterexample_recursive_rethrow_aborts :
    (recCrawl envErr recCfgErr 5 "https://a.example/" RecState.init).2 = true ∧
    "https://a.example/x" ∉
      (recCrawl envErr recCfgErr 5 "https://a.example/"
        RecState.init).1.visited := by
  refine ⟨?_, ?_⟩ <;> decide

/-- C5 (amended): in the queue variant a recoverable visit error never
aborts the run — the failure is an ordinary transition that logs the
error, releases the page and context, leaves the frontier, the visited
set and the ledger untouched, and only removes the visit from the
in-flight pool; in the recursive variant, by contrast, a navigation
failure is rethrown to the caller after the resources are released, so
the run aborts. -/
theorem c5_amended_queue_continues_recursive_rethrows
    (qcfg : QCfg) (qs : QState) (url msg : String) (ha : url ∈ qs.active)
    (env : Env) (cfg : RecCfg) (n : Nat) (url2 : String) (s2 : RecState)
    (h1 : url2 ∉ s2.visited) (h2 : s2.visited.length < cfg.maxPages)
    (h3 : env.nav url2 = none) :
    QStep qcfg qs (failEffect url msg qs) ∧
    (failEffect url msg qs).queue = qs.queue ∧
    (failEffect url msg qs).visited = qs.visited ∧
    (failEffect url msg qs).cookieLog = qs.cookieLog ∧
    (failEffect url msg qs).errors = qs.errors ++ [msg] ∧
    (∀ u m, (crawlUrlBody u (NavResult.err m)).pageClosed = true ∧
      (crawlUrlBody u (NavResult.err m)).contextClosed = true ∧
      (crawlUrlBody u (NavResult.err m)).events = [] ∧
      (crawlUrlBody u (NavResult.err m)).errors ≠ []) ∧
    recCrawl env cfg (n + 1) url2 s2
      = ({ s2 with visited := s2.visited ++ [url2] }, true) := by
  have h2' : ¬(cfg.maxPages ≤ s2.visited.length) := Nat.not_le.2 h2
  refine ⟨QStep.fail url msg qs ha, rfl, rfl, rfl, rfl, ?_, ?_⟩
  · intro u m
    exact ⟨rfl, rfl, rfl, by simp [crawlUrlBody]⟩
  · simp [recCrawl, h1, h2', h3]

/-- Witness for the amended C5 at a concrete in-flight visit and a
concrete failing navigation. -/
theorem c5_amended_witness :
    QStep qcfgEx
      (dispatchEffect "https://a.example/" [] (QState.init qcfgEx))
      (failEffect "https://a.example/" "net::ERR_TIMED_OUT"
        (dispatchEffect "https://a.example/" [] (QState.init qcfgEx))) ∧
    recCrawl envErr recCfgErr (4 + 1) "https://a.example/bad" RecState.init
      = ({ RecState.init with
            visited := RecState.init.visited ++ ["https://a.example/bad"] },
          true) := by
  have h := c5_amended_queue_continues_recursive_rethrows qcfgEx
    (dispatchEffect "https://a.example/" [] (QState.init qcfgEx))
    "https://a.example/" "net::ERR_TIMED_OUT"
    (by decide)
    envErr recCfgErr 4 "https://a.example/bad" RecState.init
    (by decide) (by decide) rfl
  exact ⟨h.1, h.2.2.2.2.2.2⟩

/-- C6: counterexample.  The queue variant's `crawlUrl` pushes
`{ url, cookies }` unconditionally, so a reachable run state holds a
Cookie Event whose cookie list is empty: after dispatching the fixture
seed whose page sets no cookies, the ledger entry has `cookies = []`. -/
theorem c6_counterexample_empty_event :
    QReachable qcfgEx qsEx ∧
    (qsEx.cookieLog.all fun e => !e.cookies.isEmpty) = false :=
  ⟨qreachEx, by decide⟩

/-- C6 (amended): only the recursive variant guarantees non-empty Cookie
Events — `captureCookies` returns without logging when no new cookie is
observed, so every event of a recursive run has a non-empty cookie list;
the queue variant's `crawlUrl` instead pushes exactly one
`{ url, cookies }` entry per successfully navigated page, with the full
(possibly empty) snapshot and no dedup. -/
theorem c6_amended_nonempty_only_recursive
    (env : Env) (cfg : RecCfg) (fuel : Nat) (url : String) (e : CookieEvent)
    (he : e ∈ (recCrawl env cfg fuel url RecState.init).1.cookieLog)
    (u : String) (cookies : List Cookie) (anchors : List String) :
    e.cookies ≠ [] ∧
    (crawlUrlBody u (NavResult.ok cookies anchors)).events
      = [⟨u, none, none, cookies⟩] := by
  refine ⟨?_, rfl⟩
  have := recCrawl_inv env cfg (fun t => ∀ x ∈ t.cookieLog, x.cookies ≠ [])
    (fun _ => True) (fun _ _ => trivial) (fun t u _ _ _ h => h)
    captureCookies_nonempty_events fuel url RecState.init trivial
    (by simp [RecState.init])
  exact this e he

/-- Witness for the amended C6 at the fixture recursive run's single event
and a concrete successful queue visit. -/
theorem c6_amended_witness :
    (⟨"https://a.example/", some "initial load",
        some "2026-10-11T00:00:00.000Z", [sessionCookie]⟩ :
      CookieEvent).cookies ≠ [] ∧
    (crawlUrlBody "https://a.example/" (NavResult.ok [] [])).events
      = [⟨"https://a.example/", none, none, []⟩] :=
  c6_amended_nonempty_only_recursive envEx recCfgEx 5 "https://a.example/"
    ⟨"https://a.example/", some "initial load",
      some "2026-10-11T00:00:00.000Z", [sessionCookie]⟩
    (by decide) "https://a.example/" [] []

/-- C7: with domain scoping (the recursive variant), every URL in the
final visited list has a hostname equal to the seed hostname or a
subdomain of it (suffix match on `"." ++ seedHostname`): discovered links
are filtered by `isSameDomain` before being scheduled; and a page whose
post-redirect address resolves out of scope is abandoned — the call
returns with the URL marked visited and no other state change. -/
theorem c7_domain_scoping
    (env : Env) (startUrl : String) (maxPages w fuel : Nat)
    (cfg2 : RecCfg) (url2 : String) (s2 : RecState) (pr : PageResult) (n : Nat)
    (h1 : url2 ∉ s2.visited) (h2 : s2.visited.length < cfg2.maxPages)
    (h3 : env.nav url2 = some pr)
    (h4 : isSameDomain cfg2.startHostname (env.hostOf pr.finalUrl) = false) :
    (∀ u ∈ (recCrawl env (mkRecCfg env startUrl maxPages w) fuel startUrl
        RecState.init).1.visited,
      isSameDomain (mkRecCfg env startUrl maxPages w).startHostname
        (env.hostOf u) = true) ∧
    recCrawl env cfg2 (n + 1) url2 s2
      = ({ s2 with visited := s2.visited ++ [url2] }, false) := by
  have h2' : ¬(cfg2.maxPages ≤ s2.visited.length) := Nat.not_le.2 h2
  constructor
  · refine recCrawl_inv env (mkRecCfg env startUrl maxPages w)
      (fun t => ∀ u ∈ t.visited,
        isSameDomain (mkRecCfg env startUrl maxPages w).startHostname
          (env.hostOf u) = true)
      (fun l => isSameDomain (mkRecCfg env startUrl maxPages w).startHostname
        (env.hostOf l) = true)
      (fun l h => h) ?_ ?_ fuel startUrl RecState.init ?_
      (by simp [RecState.init])
    · intro t u hQ _ _ hP v hv
      rcases List.mem_append.1 hv with hold | hnew
      · exact hP v hold
      · have : v = u := by simpa using hnew
        exact this ▸ hQ
    · intro t u cs st ts h
      simpa [captureCookies_visited] using h
    · simp [mkRecCfg, isSameDomain]
  · simp [recCrawl, h1, h2', h3, h4]

/-- Witness for C7: the same-domain page `/x` visited by the fixture run is
in scope, and the fixture page `/r` redirecting to `b.other` is abandoned
right after being marked visited. -/
theorem c7_domain_scoping_witness :
    isSameDomain recCfgEx.startHostname (envEx.hostOf "https://a.example/x")
      = true ∧
    recCrawl envEx recCfgEx (2 + 1) "https://a.example/r" RecState.init
      = ({ RecState.init with
            visited := RecState.init.visited ++ ["https://a.example/r"] },
          false) := by
  have h := c7_domain_scoping envEx "https://a.example/" 10 600 5
    recCfgEx "https://a.example/r" RecState.init
    ⟨"https://b.other/", [], [], []⟩ 2
    (by decide) (by decide) rfl (by decide)
  exact ⟨h.1 "https://a.example/x" (by decide), h.2⟩

/-- C8: cookie dedup under the recursive variant's name-only key is
idempotent: in any run started from a fresh state, at most one logged
event's cookie list mentions any given cookie name; and once a name is in
`recordedCookieNames`, replaying any cookie data through `captureCookies`
never appends another event mentioning that name. -/
theorem c8_dedup_idempotent
    (env : Env) (cfg : RecCfg) (fuel : Nat) (url nm : String)
    (s : RecState) (u st ts : String) (cs : List Cookie)
    (hnm : nm ∈ s.recordedCookieNames) :
    (recCrawl env cfg fuel url RecState.init).1.cookieLog.countP
      (eventHasName nm) ≤ 1 ∧
    (captureCookies s u cs st ts).cookieLog.countP (eventHasName nm)
      = s.cookieLog.countP (eventHasName nm) := by
  constructor
  · have := recCrawl_inv env cfg (DedupInv nm) (fun _ => True)
      (fun _ _ => trivial) (fun t u _ _ _ h => h)
      (fun t u cs st ts h => captureCookies_dedupInv nm t u cs st ts h)
      fuel url RecState.init trivial (dedupInv_init nm)
    exact this.2
  · exact captureCookies_countP_of_recorded nm s u cs st ts hnm

/-- Witness for C8: the fixture run (whose `/x` page re-serves the
identical `session` cookie) logs `session` in exactly one event, and a
replay of the `session` cookie against a state that already recorded it
leaves the ledger count unchanged. -/
theorem c8_dedup_idempotent_witness :
    (recCrawl envEx recCfgEx 5 "https://a.example/"
      RecState.init).1.cookieLog.countP (eventHasName "session") ≤ 1 ∧
    (captureCookies ⟨["https://a.example/"], ["session"], []⟩
        "https://a.example/x" [sessionCookie] "initial load"
        "2026-10-11T00:00:00.000Z").cookieLog.countP (eventHasName "session")
      = (⟨["https://a.example/"], ["session"], []⟩ :
          RecState).cookieLog.countP (eventHasName "session") :=
  c8_dedup_idempotent envEx recCfgEx 5 "https://a.example/" "session"
    ⟨["https://a.example/"], ["session"], []⟩ "https://a.example/x"
    "initial load" "2026-10-11T00:00:00.000Z" [sessionCookie] (by decide)

/-- C9: counterexample.  The output document built by the controller from
a reachable queue-variant run contains a `cookieLog` entry that carries
neither a step label nor a timestamp (the queue `crawlUrl` pushes bare
`{ url, cookies }` objects). -/
theorem c9_counterexample_entry_without_step :
    QReachable qcfgEx qsEx ∧
    ((buildOutputData "2026-10-11T09:00:00.000Z" qsEx.visited
        qsEx.cookieLog).cookieLog.all
      fun e => e.step.isSome && e.timestamp.isSome) = false :=
  ⟨qreachEx, by decide⟩

/-- C9 (amended): the JSON document written once at run end carries
`startedAt`, the visited URL list and the cookie ledger verbatim; in the
queue variant used by the controller every ledger entry carries only a
`url` and the full cookie snapshot — never a step label or timestamp —
while only the recursive variant's events carry both. -/
theorem c9_amended_output_shape
    (ts : String) (qcfg : QCfg) (qs : QState) (hq : QReachable qcfg qs)
    (env : Env) (cfg : RecCfg) (fuel : Nat) (url : String) :
    (buildOutputData ts qs.visited qs.cookieLog).startedAt = ts ∧
    (buildOutputData ts qs.visited qs.cookieLog).visited = qs.visited ∧
    (buildOutputData ts qs.visited qs.cookieLog).cookieLog = qs.cookieLog ∧
    (∀ e ∈ qs.cookieLog, e.step = none ∧ e.timestamp = none) ∧
    (∀ e ∈ (recCrawl env cfg fuel url RecState.init).1.cookieLog,
      e.step.isSome ∧ e.timestamp.isSome) := by
  refine ⟨rfl, rfl, rfl, (qInv_reachable hq).ev, ?_⟩
  exact recCrawl_inv env cfg
    (fun t => ∀ x ∈ t.cookieLog, x.step.isSome ∧ x.timestamp.isSome)
    (fun _ => True) (fun _ _ => trivial) (fun t u _ _ _ h => h)
    captureCookies_step_timestamp fuel url RecState.init trivial
    (by simp [RecState.init])

/-- Witness for the amended C9 at the fixture queue trace and the fixture
recursive run. -/
theorem c9_amended_output_shape_witness :
    (buildOutputData "2026-10-11T09:00:00.000Z" qsEx.visited
      qsEx.cookieLog).startedAt = "2026-10-11T09:00:00.000Z" ∧
    (∀ e ∈ qsEx.cookieLog, e.step = none ∧ e.timestamp = none) := by
  have h := c9_amended_output_shape "2026-10-11T09:00:00.000Z" qcfgEx qsEx
    qreachEx envEx recCfgEx 5 "https://a.example/"
  exact ⟨h.1, h.2.2.2.1⟩

/-- C10: the recursive variant's constructor replaces the valid
configuration `waitAfterClickMs = 0` by the fallback `1000` (JavaScript
`waitAfterClickMs || 1000`), so every post-click wait of a crawler built
with `0` lasts `1000` ms; the queue variant stores `0` unchanged and its
`> 0` guard skips the wait entirely, while a positive value is honoured. -/
theorem c10_wait_zero_substituted
    (env : Env) (u : String) (p : Nat) (divs : List DivHandle) (w : Nat) :
    (mkRecCfg env u p 0).waitAfterClickMs = 1000 ∧
    (∀ t ∈ interactWaits (mkRecCfg env u p 0).waitAfterClickMs divs,
      t = 1000) ∧
    (mkQueueCfg u p 0 5).waitAfterClickMs = 0 ∧
    queueVisitWaits 0 = [] ∧
    (0 < w → queueVisitWaits w = [w]) := by
  refine ⟨rfl, ?_, rfl, rfl, ?_⟩
  · intro t ht
    rcases List.mem_map.1 ht with ⟨d, _, hdt⟩
    exact hdt ▸ rfl
  · intro hw
    simp [queueVisitWaits, hw]

/-- Witness for C10: a crawler built with wait `0` waits `1000` ms after
the one clickable div of the fixture page, and a queue-variant visit with
a positive wait honours it. -/
theorem c10_wait_zero_substituted_witness :
    (mkRecCfg envEx "https://a.example/" 10 0).waitAfterClickMs = 1000 ∧
    interactWaits (mkRecCfg envEx "https://a.example/" 10 0).waitAfterClickMs
      [⟨some (10, 10), true, none, true⟩] = [1000] ∧
    queueVisitWaits 600 = [600] := by
  have h := c10_wait_zero_substituted envEx "https://a.example/" 10
    [⟨some (10, 10), true, none, true⟩] 600
  exact ⟨h.1, by decide, h.2.2.2.2 (by decide)⟩
